import Mathlib

/-!
# Grey Wolf Optimizer — shallow embedding

Shallow embedding of `src/main.py` (class `GWO`).  Real numbers of the
Python code are modelled by `ℚ`; the score fields, which Python initializes
to `float("inf")`, are modelled by `WithTop ℚ` with `⊤` standing for
infinity.  The global numpy random stream is modelled by explicit injected
streams: `draw : ℕ → ℕ → ℚ` for the initial uniform positions
(`np.random.uniform(lb, ub, (pop_size, dim))`) and `rng : ℕ → ℚ` for the
sequential `np.random.random()` calls of the position-update phase, consumed
in source order (six draws per (candidate, dimension) pair per iteration).
The objective function is threaded as an explicit parameter `obj`.
-/

/-- The mutable state of a `GWO` instance: the fields set by `__init__`
(src/main.py lines 20–42) and mutated by `optimize`. -/
structure GWOState where
  lb : ℚ
  ub : ℚ
  dim : ℕ
  pop_size : ℕ
  max_iter : ℕ
  positions : List (List ℚ)
  alpha_pos : List ℚ
  alpha_score : WithTop ℚ
  beta_pos : List ℚ
  beta_score : WithTop ℚ
  delta_pos : List ℚ
  delta_score : WithTop ℚ
  convergence_curve : List (WithTop ℚ)
deriving DecidableEq, Repr

/-- Error taxonomy of the spec (§7).  The source code never constructs
either error; the type exists so that the construction-failure claim can be
stated. -/
inductive GWOError where
  | invalidConfig
  | objectiveEvaluationFailed
deriving DecidableEq, Repr

namespace GWO

/-- `GWO.__init__` (src/main.py lines 9–42): stores the configuration,
draws the initial positions (`np.random.uniform`, modelled by `draw`),
sets the three leaders to (zero vector, inf) and the convergence curve to
`[]`.  The body performs no validation of any kind. -/
def initState (lower_bound upper_bound : ℚ) (dim wolf_count max_iter : ℕ)
    (draw : ℕ → ℕ → ℚ) : GWOState :=
  { lb := lower_bound
    ub := upper_bound
    dim := dim
    pop_size := wolf_count
    max_iter := max_iter
    positions :=
      (List.range wolf_count).map (fun i => (List.range dim).map (draw i))
    alpha_pos := List.replicate dim 0
    alpha_score := ⊤
    beta_pos := List.replicate dim 0
    beta_score := ⊤
    delta_pos := List.replicate dim 0
    delta_score := ⊤
    convergence_curve := [] }

/-- `GWO.__init__` as a fallible constructor.  Faithful to the source: the
Python constructor contains no check and cannot raise for any argument
values, so it always returns `Except.ok`. -/
def init? (lower_bound upper_bound : ℚ) (dim wolf_count max_iter : ℕ)
    (draw : ℕ → ℕ → ℚ) : Except GWOError GWOState :=
  Except.ok (initState lower_bound upper_bound dim wolf_count max_iter draw)

/-- The constructor invariants of the spec (§3/§4.1): `lower < upper`,
`dim ≥ 1`, `wolf_count ≥ 3`, `max_iter ≥ 1`. -/
def validConfig (lower_bound upper_bound : ℚ) (dim wolf_count max_iter : ℕ) :
    Prop :=
  lower_bound < upper_bound ∧ 1 ≤ dim ∧ 3 ≤ wolf_count ∧ 1 ≤ max_iter

instance (lb ub : ℚ) (d wc mi : ℕ) : Decidable (validConfig lb ub d wc mi) :=
  inferInstanceAs (Decidable (_ ∧ _ ∧ _ ∧ _))

/-- Modelled from the spec: the construction contract of §4.1/§7, which
says construction fails with `InvalidConfig` whenever a constructor
invariant is violated.  This definition follows the spec's words; the
source constructor `init?` is to be compared against it. -/
def initSpec (lower_bound upper_bound : ℚ) (dim wolf_count max_iter : ℕ)
    (draw : ℕ → ℕ → ℚ) : Except GWOError GWOState :=
  if validConfig lower_bound upper_bound dim wolf_count max_iter then
    Except.ok (initState lower_bound upper_bound dim wolf_count max_iter draw)
  else
    Except.error GWOError.invalidConfig

/-- `np.clip(x, lb, ub)` (src/main.py line 56): equivalent to
`np.minimum(ub, np.maximum(x, lb))`. -/
def clip (lb ub x : ℚ) : ℚ :=
  min ub (max lb x)

/-- The leader-update conditional (src/main.py lines 62–78), applied after
evaluating one candidate: `fitness` is the candidate's score and `pos` its
(already clipped) position. -/
def updateLeaders (s : GWOState) (fitness : ℚ) (pos : List ℚ) : GWOState :=
  if (fitness : WithTop ℚ) < s.alpha_score then
    { s with
      delta_score := s.beta_score
      delta_pos := s.beta_pos
      beta_score := s.alpha_score
      beta_pos := s.alpha_pos
      alpha_score := (fitness : WithTop ℚ)
      alpha_pos := pos }
  else if s.alpha_score < (fitness : WithTop ℚ) ∧
      (fitness : WithTop ℚ) < s.beta_score then
    { s with
      delta_score := s.beta_score
      delta_pos := s.beta_pos
      beta_score := (fitness : WithTop ℚ)
      beta_pos := pos }
  else if s.alpha_score < (fitness : WithTop ℚ) ∧
      s.beta_score < (fitness : WithTop ℚ) ∧
      (fitness : WithTop ℚ) < s.delta_score then
    { s with
      delta_score := (fitness : WithTop ℚ)
      delta_pos := pos }
  else
    s

/-- One pass of the evaluation loop body (src/main.py lines 53–78) for
candidate `i`: clip the row into `[lb, ub]`, evaluate the objective on the
clipped row, fold the result into the leaders. -/
def evalStep (obj : List ℚ → ℚ) (s : GWOState) (i : ℕ) : GWOState :=
  let clipped := (s.positions.getD i []).map (clip s.lb s.ub)
  let s1 := { s with positions := s.positions.set i clipped }
  updateLeaders s1 (obj clipped) clipped

/-- The full evaluation-and-ranking loop of one iteration
(src/main.py lines 53–78): `for i in range(self.pop_size)`. -/
def evalPhase (obj : List ℚ → ℚ) (s : GWOState) : GWOState :=
  (List.range s.pop_size).foldl (evalStep obj) s

/-- The decay coefficient `a = 2 - t * (2 / max_iter)`
(src/main.py line 82). -/
def decay (max_iter t : ℕ) : ℚ :=
  2 - (t : ℚ) * (2 / (max_iter : ℚ))

/-- One leader's pull term (src/main.py lines 91–95 and the two analogous
blocks): `A = 2*a*r1 - a`, `C = 2*r2`, `D = |C*lead - x|`, result
`lead - A*D`. -/
def pull (a lead x r1 r2 : ℚ) : ℚ :=
  let A := 2 * a * r1 - a
  let C := 2 * r2
  let D := |C * lead - x|
  lead - A * D

/-- The body of the position-update double loop (src/main.py lines 86–112)
for candidate `i` and dimension `j`.  The six `np.random.random()` calls of
this body are the stream values `rng (b)` … `rng (b+5)` where
`b = base + 6*(i*dim + j)` — the Alpha pair first, then the Beta pair, then
the Delta pair, exactly as the source draws them. -/
def posStep (a : ℚ) (rng : ℕ → ℚ) (base : ℕ) (s : GWOState) (i j : ℕ) :
    GWOState :=
  let x := (s.positions.getD i []).getD j 0
  let b := base + 6 * (i * s.dim + j)
  let X1 := pull a (s.alpha_pos.getD j 0) x (rng b) (rng (b + 1))
  let X2 := pull a (s.beta_pos.getD j 0) x (rng (b + 2)) (rng (b + 3))
  let X3 := pull a (s.delta_pos.getD j 0) x (rng (b + 4)) (rng (b + 5))
  { s with
    positions :=
      s.positions.set i ((s.positions.getD i []).set j ((X1 + X2 + X3) / 3)) }

/-- The position-update phase of one iteration (src/main.py lines 85–112):
`for i in range(self.pop_size): for j in range(self.dim): …`. -/
def posPhase (a : ℚ) (rng : ℕ → ℚ) (base : ℕ) (s : GWOState) : GWOState :=
  (List.range s.pop_size).foldl
    (fun s2 i => (List.range s2.dim).foldl (fun s3 j => posStep a rng base s3 i j) s2)
    s

/-- Index into the random stream at which iteration `t` starts: each
iteration consumes `6 * pop_size * dim` uniform draws. -/
def rngBase (s : GWOState) (t : ℕ) : ℕ :=
  6 * s.pop_size * s.dim * t

/-- One iteration of the main loop (src/main.py lines 50–115): evaluation
and ranking, decay update, position update, then append `alpha_score` to
the convergence curve. -/
def iterStep (obj : List ℚ → ℚ) (rng : ℕ → ℚ) (s : GWOState) (t : ℕ) :
    GWOState :=
  let s1 := evalPhase obj s
  let a := decay s1.max_iter t
  let s2 := posPhase a rng (rngBase s1 t) s1
  { s2 with convergence_curve := s2.convergence_curve ++ [s2.alpha_score] }

/-- The state after the first `t` iterations of `optimize`'s main loop. -/
def afterIter (obj : List ℚ → ℚ) (rng : ℕ → ℚ) (s : GWOState) (t : ℕ) :
    GWOState :=
  (List.range t).foldl (iterStep obj rng) s

/-- `GWO.optimize` (src/main.py lines 44–125): runs the main loop
`max_iter` times and returns the final state; the Python method's return
value is the `convergence_curve` field of that state. -/
def optimize (obj : List ℚ → ℚ) (rng : ℕ → ℚ) (s : GWOState) : GWOState :=
  afterIter obj rng s s.max_iter

end GWO

/-- The all-zero streams, used to instantiate theorems at concrete inputs. -/
def zeroDraw : ℕ → ℕ → ℚ := fun _ _ => 0

/-- The all-zero random stream. -/
def zeroRng : ℕ → ℚ := fun _ => 0

/-- The constant-zero objective. -/
def zeroObj : List ℚ → ℚ := fun _ => 0

/-! ## General helper lemmas -/

lemma listGetD_set_self {α : Type} (l : List α) (i : ℕ) (a d : α)
    (h : i < l.length) : (l.set i a).getD i d = a := by
  rw [List.getD_eq_getElem?_getD, List.getElem?_set_eq_of_lt a h]
  rfl

lemma listGetD_set_ne {α : Type} (l : List α) {i j : ℕ} (a : α) (d : α)
    (h : i ≠ j) : (l.set i a).getD j d = l.getD j d := by
  rw [List.getD_eq_getElem?_getD, List.getElem?_set_ne h,
    ← List.getD_eq_getElem?_getD]

/-- A state projection preserved by every step of a fold is preserved by
the fold. -/
lemma foldl_proj_eq {σ β γ : Type} (g : σ → γ) (f : σ → β → σ)
    (hf : ∀ s i, g (f s i) = g s) (l : List β) (s : σ) :
    g (l.foldl f s) = g s := by
  induction l generalizing s with
  | nil => rfl
  | cons x xs ih => rw [List.foldl_cons, ih, hf]

/-- A state predicate preserved by every step of a fold is preserved by
the fold. -/
lemma foldl_pred {σ β : Type} (P : σ → Prop) (f : σ → β → σ)
    (hf : ∀ s i, P s → P (f s i)) (l : List β) (s : σ) (hs : P s) :
    P (l.foldl f s) := by
  induction l generalizing s with
  | nil => exact hs
  | cons x xs ih => exact ih _ (hf _ _ hs)

namespace GWO

/-! ## Field-preservation lemmas -/

lemma updateLeaders_lb (s : GWOState) (f : ℚ) (p : List ℚ) :
    (updateLeaders s f p).lb = s.lb := by
  unfold updateLeaders; split_ifs <;> rfl

lemma updateLeaders_ub (s : GWOState) (f : ℚ) (p : List ℚ) :
    (updateLeaders s f p).ub = s.ub := by
  unfold updateLeaders; split_ifs <;> rfl

lemma updateLeaders_dim (s : GWOState) (f : ℚ) (p : List ℚ) :
    (updateLeaders s f p).dim = s.dim := by
  unfold updateLeaders; split_ifs <;> rfl

lemma updateLeaders_pop_size (s : GWOState) (f : ℚ) (p : List ℚ) :
    (updateLeaders s f p).pop_size = s.pop_size := by
  unfold updateLeaders; split_ifs <;> rfl

lemma updateLeaders_max_iter (s : GWOState) (f : ℚ) (p : List ℚ) :
    (updateLeaders s f p).max_iter = s.max_iter := by
  unfold updateLeaders; split_ifs <;> rfl

lemma updateLeaders_positions (s : GWOState) (f : ℚ) (p : List ℚ) :
    (updateLeaders s f p).positions = s.positions := by
  unfold updateLeaders; split_ifs <;> rfl

lemma updateLeaders_curve (s : GWOState) (f : ℚ) (p : List ℚ) :
    (updateLeaders s f p).convergence_curve = s.convergence_curve := by
  unfold updateLeaders; split_ifs <;> rfl

lemma evalStep_lb (obj : List ℚ → ℚ) (s : GWOState) (i : ℕ) :
    (evalStep obj s i).lb = s.lb := by
  unfold evalStep; rw [updateLeaders_lb]

lemma evalStep_ub (obj : List ℚ → ℚ) (s : GWOState) (i : ℕ) :
    (evalStep obj s i).ub = s.ub := by
  unfold evalStep; rw [updateLeaders_ub]

lemma evalStep_dim (obj : List ℚ → ℚ) (s : GWOState) (i : ℕ) :
    (evalStep obj s i).dim = s.dim := by
  unfold evalStep; rw [updateLeaders_dim]

lemma evalStep_pop_size (obj : List ℚ → ℚ) (s : GWOState) (i : ℕ) :
    (evalStep obj s i).pop_size = s.pop_size := by
  unfold evalStep; rw [updateLeaders_pop_size]

lemma evalStep_max_iter (obj : List ℚ → ℚ) (s : GWOState) (i : ℕ) :
    (evalStep obj s i).max_iter = s.max_iter := by
  unfold evalStep; rw [updateLeaders_max_iter]

lemma evalStep_curve (obj : List ℚ → ℚ) (s : GWOState) (i : ℕ) :
    (evalStep obj s i).convergence_curve = s.convergence_curve := by
  unfold evalStep; rw [updateLeaders_curve]

lemma evalPhase_lb (obj : List ℚ → ℚ) (s : GWOState) :
    (evalPhase obj s).lb = s.lb :=
  foldl_proj_eq _ _ (evalStep_lb obj) _ s

lemma evalPhase_ub (obj : List ℚ → ℚ) (s : GWOState) :
    (evalPhase obj s).ub = s.ub :=
  foldl_proj_eq _ _ (evalStep_ub obj) _ s

lemma evalPhase_dim (obj : List ℚ → ℚ) (s : GWOState) :
    (evalPhase obj s).dim = s.dim :=
  foldl_proj_eq _ _ (evalStep_dim obj) _ s

lemma evalPhase_pop_size (obj : List ℚ → ℚ) (s : GWOState) :
    (evalPhase obj s).pop_size = s.pop_size :=
  foldl_proj_eq _ _ (evalStep_pop_size obj) _ s

lemma evalPhase_max_iter (obj : List ℚ → ℚ) (s : GWOState) :
    (evalPhase obj s).max_iter = s.max_iter :=
  foldl_proj_eq _ _ (evalStep_max_iter obj) _ s

lemma evalPhase_curve (obj : List ℚ → ℚ) (s : GWOState) :
    (evalPhase obj s).convergence_curve = s.convergence_curve :=
  foldl_proj_eq _ _ (evalStep_curve obj) _ s

end GWO

namespace GWO

lemma posStep_lb (a : ℚ) (rng : ℕ → ℚ) (base : ℕ) (s : GWOState) (i j : ℕ) :
    (posStep a rng base s i j).lb = s.lb := rfl

lemma posStep_ub (a : ℚ) (rng : ℕ → ℚ) (base : ℕ) (s : GWOState) (i j : ℕ) :
    (posStep a rng base s i j).ub = s.ub := rfl

lemma posStep_dim (a : ℚ) (rng : ℕ → ℚ) (base : ℕ) (s : GWOState) (i j : ℕ) :
    (posStep a rng base s i j).dim = s.dim := rfl

lemma posStep_pop_size (a : ℚ) (rng : ℕ → ℚ) (base : ℕ) (s : GWOState)
    (i j : ℕ) : (posStep a rng base s i j).pop_size = s.pop_size := rfl

lemma posStep_max_iter (a : ℚ) (rng : ℕ → ℚ) (base : ℕ) (s : GWOState)
    (i j : ℕ) : (posStep a rng base s i j).max_iter = s.max_iter := rfl

lemma posStep_alpha_pos (a : ℚ) (rng : ℕ → ℚ) (base : ℕ) (s : GWOState)
    (i j : ℕ) : (posStep a rng base s i j).alpha_pos = s.alpha_pos := rfl

lemma posStep_alpha_score (a : ℚ) (rng : ℕ → ℚ) (base : ℕ) (s : GWOState)
    (i j : ℕ) : (posStep a rng base s i j).alpha_score = s.alpha_score := rfl

lemma posStep_beta_pos (a : ℚ) (rng : ℕ → ℚ) (base : ℕ) (s : GWOState)
    (i j : ℕ) : (posStep a rng base s i j).beta_pos = s.beta_pos := rfl

lemma posStep_beta_score (a : ℚ) (rng : ℕ → ℚ) (base : ℕ) (s : GWOState)
    (i j : ℕ) : (posStep a rng base s i j).beta_score = s.beta_score := rfl

lemma posStep_delta_pos (a : ℚ) (rng : ℕ → ℚ) (base : ℕ) (s : GWOState)
    (i j : ℕ) : (posStep a rng base s i j).delta_pos = s.delta_pos := rfl

lemma posStep_delta_score (a : ℚ) (rng : ℕ → ℚ) (base : ℕ) (s : GWOState)
    (i j : ℕ) : (posStep a rng base s i j).delta_score = s.delta_score := rfl

lemma posStep_curve (a : ℚ) (rng : ℕ → ℚ) (base : ℕ) (s : GWOState)
    (i j : ℕ) :
    (posStep a rng base s i j).convergence_curve = s.convergence_curve := rfl

/-- The position-update phase changes only the `positions` field. -/
lemma posPhase_proj {γ : Type} (g : GWOState → γ)
    (hg : ∀ a rng base s i j, g (posStep a rng base s i j) = g s)
    (a : ℚ) (rng : ℕ → ℚ) (base : ℕ) (s : GWOState) :
    g (posPhase a rng base s) = g s := by
  unfold posPhase
  refine foldl_proj_eq g _ (fun s2 i => ?_) _ s
  exact foldl_proj_eq g _ (fun s3 j => hg a rng base s3 i j) _ s2

lemma posPhase_alpha_score (a : ℚ) (rng : ℕ → ℚ) (base : ℕ) (s : GWOState) :
    (posPhase a rng base s).alpha_score = s.alpha_score :=
  posPhase_proj _ posStep_alpha_score a rng base s

lemma posPhase_beta_score (a : ℚ) (rng : ℕ → ℚ) (base : ℕ) (s : GWOState) :
    (posPhase a rng base s).beta_score = s.beta_score :=
  posPhase_proj _ posStep_beta_score a rng base s

lemma posPhase_delta_score (a : ℚ) (rng : ℕ → ℚ) (base : ℕ) (s : GWOState) :
    (posPhase a rng base s).delta_score = s.delta_score :=
  posPhase_proj _ posStep_delta_score a rng base s

lemma posPhase_alpha_pos (a : ℚ) (rng : ℕ → ℚ) (base : ℕ) (s : GWOState) :
    (posPhase a rng base s).alpha_pos = s.alpha_pos :=
  posPhase_proj _ posStep_alpha_pos a rng base s

lemma posPhase_beta_pos (a : ℚ) (rng : ℕ → ℚ) (base : ℕ) (s : GWOState) :
    (posPhase a rng base s).beta_pos = s.beta_pos :=
  posPhase_proj _ posStep_beta_pos a rng base s

lemma posPhase_delta_pos (a : ℚ) (rng : ℕ → ℚ) (base : ℕ) (s : GWOState) :
    (posPhase a rng base s).delta_pos = s.delta_pos :=
  posPhase_proj _ posStep_delta_pos a rng base s

lemma posPhase_curve (a : ℚ) (rng : ℕ → ℚ) (base : ℕ) (s : GWOState) :
    (posPhase a rng base s).convergence_curve = s.convergence_curve :=
  posPhase_proj _ posStep_curve a rng base s

lemma posPhase_lb (a : ℚ) (rng : ℕ → ℚ) (base : ℕ) (s : GWOState) :
    (posPhase a rng base s).lb = s.lb :=
  posPhase_proj _ posStep_lb a rng base s

lemma posPhase_ub (a : ℚ) (rng : ℕ → ℚ) (base : ℕ) (s : GWOState) :
    (posPhase a rng base s).ub = s.ub :=
  posPhase_proj _ posStep_ub a rng base s

lemma posPhase_dim (a : ℚ) (rng : ℕ → ℚ) (base : ℕ) (s : GWOState) :
    (posPhase a rng base s).dim = s.dim :=
  posPhase_proj _ posStep_dim a rng base s

lemma posPhase_pop_size (a : ℚ) (rng : ℕ → ℚ) (base : ℕ) (s : GWOState) :
    (posPhase a rng base s).pop_size = s.pop_size :=
  posPhase_proj _ posStep_pop_size a rng base s

lemma posPhase_max_iter (a : ℚ) (rng : ℕ → ℚ) (base : ℕ) (s : GWOState) :
    (posPhase a rng base s).max_iter = s.max_iter :=
  posPhase_proj _ posStep_max_iter a rng base s

lemma iterStep_lb (obj : List ℚ → ℚ) (rng : ℕ → ℚ) (s : GWOState) (t : ℕ) :
    (iterStep obj rng s t).lb = s.lb := by
  unfold iterStep
  rw [posPhase_lb, evalPhase_lb]

lemma iterStep_ub (obj : List ℚ → ℚ) (rng : ℕ → ℚ) (s : GWOState) (t : ℕ) :
    (iterStep obj rng s t).ub = s.ub := by
  unfold iterStep
  rw [posPhase_ub, evalPhase_ub]

lemma iterStep_dim (obj : List ℚ → ℚ) (rng : ℕ → ℚ) (s : GWOState) (t : ℕ) :
    (iterStep obj rng s t).dim = s.dim := by
  unfold iterStep
  rw [posPhase_dim, evalPhase_dim]

lemma iterStep_pop_size (obj : List ℚ → ℚ) (rng : ℕ → ℚ) (s : GWOState)
    (t : ℕ) : (iterStep obj rng s t).pop_size = s.pop_size := by
  unfold iterStep
  rw [posPhase_pop_size, evalPhase_pop_size]

lemma iterStep_max_iter (obj : List ℚ → ℚ) (rng : ℕ → ℚ) (s : GWOState)
    (t : ℕ) : (iterStep obj rng s t).max_iter = s.max_iter := by
  unfold iterStep
  rw [posPhase_max_iter, evalPhase_max_iter]

lemma iterStep_alpha_score (obj : List ℚ → ℚ) (rng : ℕ → ℚ) (s : GWOState)
    (t : ℕ) :
    (iterStep obj rng s t).alpha_score = (evalPhase obj s).alpha_score := by
  simp only [iterStep, posPhase_alpha_score]

lemma iterStep_curve (obj : List ℚ → ℚ) (rng : ℕ → ℚ) (s : GWOState)
    (t : ℕ) :
    (iterStep obj rng s t).convergence_curve =
      s.convergence_curve ++ [(evalPhase obj s).alpha_score] := by
  simp only [iterStep, posPhase_curve, evalPhase_curve, posPhase_alpha_score]

lemma afterIter_succ (obj : List ℚ → ℚ) (rng : ℕ → ℚ) (s : GWOState)
    (t : ℕ) :
    afterIter obj rng s (t + 1) = iterStep obj rng (afterIter obj rng s t) t := by
  unfold afterIter
  rw [List.range_succ, List.foldl_append]
  rfl

end GWO

namespace GWO

lemma afterIter_lb (obj : List ℚ → ℚ) (rng : ℕ → ℚ) (s : GWOState) (t : ℕ) :
    (afterIter obj rng s t).lb = s.lb :=
  foldl_proj_eq _ _ (iterStep_lb obj rng) _ s

lemma afterIter_ub (obj : List ℚ → ℚ) (rng : ℕ → ℚ) (s : GWOState) (t : ℕ) :
    (afterIter obj rng s t).ub = s.ub :=
  foldl_proj_eq _ _ (iterStep_ub obj rng) _ s

lemma afterIter_dim (obj : List ℚ → ℚ) (rng : ℕ → ℚ) (s : GWOState) (t : ℕ) :
    (afterIter obj rng s t).dim = s.dim :=
  foldl_proj_eq _ _ (iterStep_dim obj rng) _ s

lemma afterIter_pop_size (obj : List ℚ → ℚ) (rng : ℕ → ℚ) (s : GWOState)
    (t : ℕ) : (afterIter obj rng s t).pop_size = s.pop_size :=
  foldl_proj_eq _ _ (iterStep_pop_size obj rng) _ s

lemma afterIter_max_iter (obj : List ℚ → ℚ) (rng : ℕ → ℚ) (s : GWOState)
    (t : ℕ) : (afterIter obj rng s t).max_iter = s.max_iter :=
  foldl_proj_eq _ _ (iterStep_max_iter obj rng) _ s

end GWO

/-! ## C1: construction-time validation -/

/-- C1, counterexample.  The claim says construction fails with
`InvalidConfig` whenever a constructor invariant is violated.  On the
configuration `lower_bound = 1, upper_bound = 0, dim = 0, wolf_count = 0,
max_iter = 0` — which violates every constructor invariant at once — the
source constructor `GWO.init?` nevertheless succeeds, while the
spec-modelled constructor `GWO.initSpec` fails with `InvalidConfig` as the
claim demands. -/
theorem C1_counterexample :
    ¬ GWO.validConfig 1 0 0 0 0 ∧
      (GWO.init? 1 0 0 0 0 zeroDraw).isOk = true ∧
      GWO.initSpec 1 0 0 0 0 zeroDraw = Except.error GWOError.invalidConfig := by
  refine ⟨by decide, rfl, ?_⟩
  unfold GWO.initSpec
  rw [if_neg (by decide)]

/-- C1, amended: the constructor never validates anything.  Every
configuration — including any that violates `lower_bound < upper_bound`,
`dim ≥ 1`, `wolf_count ≥ 3` or `max_iter ≥ 1` — is accepted at construction
time, and `InvalidConfig` is never raised, neither at construction nor at
iteration time. -/
theorem C1_init_accepts_everything (lower_bound upper_bound : ℚ)
    (dim wolf_count max_iter : ℕ) (draw : ℕ → ℕ → ℚ) :
    (GWO.init? lower_bound upper_bound dim wolf_count max_iter draw).isOk =
      true :=
  rfl

/-! ## C5: the decay coefficient -/

/-- C5, counterexample.  The claim says the decay coefficient "can go
slightly negative on the very last iteration when `t = max_iter − 1`".  For
`max_iter = 5` the last iteration is `t = 4`, and there the coefficient
equals `2/5`, which is strictly positive — it is never negative. -/
theorem C5_counterexample :
    GWO.decay 5 4 = 2 / 5 ∧ ¬ GWO.decay 5 4 < 0 := by
  constructor
  · unfold GWO.decay
    norm_num
  · unfold GWO.decay
    norm_num

/-- C5, amended: at every iteration `t` (0-based, `t < max_iter`,
`max_iter ≥ 1`) the decay coefficient equals `a = 2 − t·(2/max_iter)`,
decreasing linearly from 2 toward 0 over the run; on the very last
iteration `t = max_iter − 1` it equals `2/max_iter`, which is strictly
positive — it never goes negative. -/
theorem C5_decay_linear_and_positive (max_iter t : ℕ) (hm : 1 ≤ max_iter)
    (ht : t < max_iter) :
    GWO.decay max_iter t = 2 - (t : ℚ) * (2 / (max_iter : ℚ)) ∧
      0 < GWO.decay max_iter t ∧
      (t = max_iter - 1 → GWO.decay max_iter t = 2 / (max_iter : ℚ)) := by
  have hm0 : (0 : ℚ) < (max_iter : ℚ) := by exact_mod_cast hm
  have htm : (t : ℚ) + 1 ≤ (max_iter : ℚ) := by exact_mod_cast ht
  have hdiv : 0 < 2 / (max_iter : ℚ) := by positivity
  have hmul : (t : ℚ) * (2 / (max_iter : ℚ)) ≤
      ((max_iter : ℚ) - 1) * (2 / (max_iter : ℚ)) := by
    apply mul_le_mul_of_nonneg_right (by linarith) (le_of_lt hdiv)
  have hEq : ((max_iter : ℚ) - 1) * (2 / (max_iter : ℚ)) =
      2 - 2 / (max_iter : ℚ) := by
    field_simp
    ring
  refine ⟨rfl, ?_, ?_⟩
  · unfold GWO.decay
    rw [hEq] at hmul
    linarith
  · intro hlast
    subst hlast
    unfold GWO.decay
    have hcast : ((max_iter - 1 : ℕ) : ℚ) = (max_iter : ℚ) - 1 := by
      push_cast [Nat.cast_sub hm]
      ring
    rw [hcast, hEq]
    ring

/-- Witness for C5: the amended statement instantiated at
`max_iter = 5`, `t = 4`. -/
theorem C5_decay_linear_and_positive_witness :
    1 ≤ 5 ∧ 4 < 5 ∧
      (GWO.decay 5 4 = 2 - ((4 : ℕ) : ℚ) * (2 / ((5 : ℕ) : ℚ)) ∧
        0 < GWO.decay 5 4 ∧
        ((4 : ℕ) = 5 - 1 → GWO.decay 5 4 = 2 / ((5 : ℕ) : ℚ))) :=
  ⟨by decide, by decide, C5_decay_linear_and_positive 5 4 (by decide) (by decide)⟩

namespace GWO

/-! ## Ordering of the leader scores -/

/-- The leader-scores invariant: `alpha_score ≤ beta_score ≤ delta_score`. -/
def ordered (s : GWOState) : Prop :=
  s.alpha_score ≤ s.beta_score ∧ s.beta_score ≤ s.delta_score

instance (s : GWOState) : Decidable (ordered s) :=
  inferInstanceAs (Decidable (_ ∧ _))

lemma updateLeaders_ordered (s : GWOState) (f : ℚ) (p : List ℚ)
    (h : ordered s) : ordered (updateLeaders s f p) := by
  unfold ordered updateLeaders at *
  split_ifs with h1 h2 h3
  · exact ⟨le_of_lt h1, h.1⟩
  · exact ⟨le_of_lt h2.1, le_of_lt h2.2⟩
  · exact ⟨h.1, le_of_lt h3.2.1⟩
  · exact h

lemma evalStep_ordered (obj : List ℚ → ℚ) (s : GWOState) (i : ℕ)
    (h : ordered s) : ordered (evalStep obj s i) := by
  unfold evalStep
  exact updateLeaders_ordered _ _ _ h

lemma evalPhase_ordered (obj : List ℚ → ℚ) (s : GWOState) (h : ordered s) :
    ordered (evalPhase obj s) :=
  foldl_pred ordered _ (fun s2 i => evalStep_ordered obj s2 i) _ s h

lemma iterStep_ordered (obj : List ℚ → ℚ) (rng : ℕ → ℚ) (s : GWOState)
    (t : ℕ) (h : ordered s) : ordered (iterStep obj rng s t) := by
  have h1 := evalPhase_ordered obj s h
  unfold ordered at *
  simp only [iterStep]
  rw [posPhase_alpha_score, posPhase_beta_score, posPhase_delta_score]
  exact h1

lemma afterIter_ordered (obj : List ℚ → ℚ) (rng : ℕ → ℚ) (s : GWOState)
    (t : ℕ) (h : ordered s) : ordered (afterIter obj rng s t) :=
  foldl_pred ordered _ (fun s2 t2 => iterStep_ordered obj rng s2 t2) _ s h

lemma initState_ordered (lower_bound upper_bound : ℚ)
    (dim wolf_count max_iter : ℕ) (draw : ℕ → ℕ → ℚ) :
    ordered (initState lower_bound upper_bound dim wolf_count max_iter draw) :=
  ⟨le_refl _, le_refl _⟩

end GWO

/-! ## C2: the leader scores are sorted after every ranking pass -/

/-- C2: for every valid configuration, every objective, every random
stream and every iteration `t`, the three leader scores satisfy
`alpha_score ≤ beta_score ≤ delta_score` as soon as the ranking pass
(the evaluation-and-leader-update loop) of iteration `t` completes. -/
theorem C2_leader_scores_ordered (lower_bound upper_bound : ℚ)
    (dim wolf_count max_iter : ℕ) (draw : ℕ → ℕ → ℚ) (obj : List ℚ → ℚ)
    (rng : ℕ → ℚ) (t : ℕ)
    (h : GWO.validConfig lower_bound upper_bound dim wolf_count max_iter) :
    (GWO.evalPhase obj (GWO.afterIter obj rng
        (GWO.initState lower_bound upper_bound dim wolf_count max_iter draw)
        t)).alpha_score ≤
      (GWO.evalPhase obj (GWO.afterIter obj rng
        (GWO.initState lower_bound upper_bound dim wolf_count max_iter draw)
        t)).beta_score ∧
    (GWO.evalPhase obj (GWO.afterIter obj rng
        (GWO.initState lower_bound upper_bound dim wolf_count max_iter draw)
        t)).beta_score ≤
      (GWO.evalPhase obj (GWO.afterIter obj rng
        (GWO.initState lower_bound upper_bound dim wolf_count max_iter draw)
        t)).delta_score :=
  GWO.evalPhase_ordered obj _
    (GWO.afterIter_ordered obj rng _ t
      (GWO.initState_ordered lower_bound upper_bound dim wolf_count max_iter
        draw))

/-- Witness for C2: the valid boundary configuration
`lower = 0, upper = 1, dim = 1, wolf_count = 3, max_iter = 1` at
iteration `t = 0`. -/
theorem C2_leader_scores_ordered_witness :
    GWO.validConfig 0 1 1 3 1 ∧
      ((GWO.evalPhase zeroObj (GWO.afterIter zeroObj zeroRng
          (GWO.initState 0 1 1 3 1 zeroDraw) 0)).alpha_score ≤
        (GWO.evalPhase zeroObj (GWO.afterIter zeroObj zeroRng
          (GWO.initState 0 1 1 3 1 zeroDraw) 0)).beta_score ∧
      (GWO.evalPhase zeroObj (GWO.afterIter zeroObj zeroRng
          (GWO.initState 0 1 1 3 1 zeroDraw) 0)).beta_score ≤
        (GWO.evalPhase zeroObj (GWO.afterIter zeroObj zeroRng
          (GWO.initState 0 1 1 3 1 zeroDraw) 0)).delta_score) :=
  ⟨by decide, C2_leader_scores_ordered 0 1 1 3 1 zeroDraw zeroObj zeroRng 0
    (by decide)⟩

/-! ## C8: exact ties with Alpha or Beta trigger no update -/

/-- C8: during the ranking step (where `alpha_score ≤ beta_score` holds), a
candidate whose fitness is exactly equal to `alpha_score` or exactly equal
to `beta_score` triggers no update at all: the leader-update conditional
returns the state unchanged. -/
theorem C8_tie_triggers_no_update (s : GWOState) (f : ℚ) (p : List ℚ)
    (hord : s.alpha_score ≤ s.beta_score)
    (heq : (f : WithTop ℚ) = s.alpha_score ∨ (f : WithTop ℚ) = s.beta_score) :
    GWO.updateLeaders s f p = s := by
  unfold GWO.updateLeaders
  rcases heq with h | h
  · rw [if_neg, if_neg, if_neg]
    · intro hc
      rw [← h] at hc
      exact lt_irrefl _ hc.1
    · intro hc
      rw [← h] at hc
      exact lt_irrefl _ hc.1
    · rw [h]
      exact lt_irrefl _
  · rw [if_neg, if_neg, if_neg]
    · intro hc
      rw [← h] at hc
      exact lt_irrefl _ hc.2.1
    · intro hc
      rw [← h] at hc
      exact lt_irrefl _ hc.2
    · intro hc
      rw [h] at hc
      exact absurd hord (not_le.mpr hc)

/-- A concrete ranking-time state with `alpha_score = beta_score = 0`,
used to instantiate the tie theorem. -/
def tieState : GWOState :=
  { lb := 0
    ub := 1
    dim := 1
    pop_size := 3
    max_iter := 1
    positions := [[0], [0], [0]]
    alpha_pos := [0]
    alpha_score := ((0 : ℚ) : WithTop ℚ)
    beta_pos := [0]
    beta_score := ((0 : ℚ) : WithTop ℚ)
    delta_pos := [0]
    delta_score := ((1 : ℚ) : WithTop ℚ)
    convergence_curve := [] }

/-- Witness for C8: a candidate with fitness `0`, tying `tieState`'s Alpha
(and Beta), leaves the state untouched. -/
theorem C8_tie_triggers_no_update_witness :
    tieState.alpha_score ≤ tieState.beta_score ∧
      GWO.updateLeaders tieState 0 [1/2] = tieState :=
  ⟨by decide,
    C8_tie_triggers_no_update tieState 0 [1/2] (by decide) (Or.inl (by decide))⟩

namespace GWO

/-! ## The alpha score never worsens -/

lemma updateLeaders_alpha_le (s : GWOState) (f : ℚ) (p : List ℚ) :
    (updateLeaders s f p).alpha_score ≤ s.alpha_score := by
  unfold updateLeaders
  split_ifs with h1 h2 h3
  · exact le_of_lt h1
  · exact le_refl _
  · exact le_refl _
  · exact le_refl _

lemma evalStep_alpha_le (obj : List ℚ → ℚ) (s : GWOState) (i : ℕ) :
    (evalStep obj s i).alpha_score ≤ s.alpha_score := by
  unfold evalStep
  exact updateLeaders_alpha_le _ _ _

lemma foldl_evalStep_alpha_le (obj : List ℚ → ℚ) (l : List ℕ) (s : GWOState) :
    ((l.foldl (evalStep obj) s).alpha_score ≤ s.alpha_score) := by
  induction l generalizing s with
  | nil => exact le_refl _
  | cons x xs ih =>
      exact le_trans (ih (evalStep obj s x)) (evalStep_alpha_le obj s x)

lemma evalPhase_alpha_le (obj : List ℚ → ℚ) (s : GWOState) :
    (evalPhase obj s).alpha_score ≤ s.alpha_score :=
  foldl_evalStep_alpha_le obj _ s

/-! ## The convergence-curve chain invariant -/

/-- The running curve, extended by the current alpha score, is
non-increasing. -/
def curveMono (s : GWOState) : Prop :=
  List.Chain' (fun x y => y ≤ x) (s.convergence_curve ++ [s.alpha_score])

lemma initState_curveMono (lower_bound upper_bound : ℚ)
    (dim wolf_count max_iter : ℕ) (draw : ℕ → ℕ → ℚ) :
    curveMono (initState lower_bound upper_bound dim wolf_count max_iter draw) := by
  unfold curveMono initState
  exact List.chain'_singleton _

lemma iterStep_curveMono (obj : List ℚ → ℚ) (rng : ℕ → ℚ) (s : GWOState)
    (t : ℕ) (h : curveMono s) : curveMono (iterStep obj rng s t) := by
  unfold curveMono at *
  rw [iterStep_curve, iterStep_alpha_score]
  have hle : (evalPhase obj s).alpha_score ≤ s.alpha_score :=
    evalPhase_alpha_le obj s
  rw [List.chain'_append] at h ⊢
  obtain ⟨hc, -, hlast⟩ := h
  refine ⟨?_, List.chain'_singleton _, ?_⟩
  · rw [List.chain'_append]
    refine ⟨hc, List.chain'_singleton _, ?_⟩
    intro x hx y hy
    simp only [List.head?_cons, Option.mem_def, Option.some.injEq] at hy
    subst hy
    exact le_trans hle (hlast x hx s.alpha_score (by simp))
  · intro x hx y hy
    simp only [List.getLast?_concat, Option.mem_def, Option.some.injEq] at hx
    simp only [List.head?_cons, Option.mem_def, Option.some.injEq] at hy
    subst hx
    subst hy
    exact le_refl _

lemma afterIter_curveMono (obj : List ℚ → ℚ) (rng : ℕ → ℚ) (s : GWOState)
    (t : ℕ) (h : curveMono s) : curveMono (afterIter obj rng s t) :=
  foldl_pred curveMono _ (fun s2 t2 => iterStep_curveMono obj rng s2 t2) _ s h

lemma afterIter_curve_chain (obj : List ℚ → ℚ) (rng : ℕ → ℚ)
    (lower_bound upper_bound : ℚ) (dim wolf_count max_iter : ℕ)
    (draw : ℕ → ℕ → ℚ) (t : ℕ) :
    List.Chain' (fun x y => y ≤ x)
      (afterIter obj rng
          (initState lower_bound upper_bound dim wolf_count max_iter draw)
          t).convergence_curve := by
  have h := afterIter_curveMono obj rng
    (initState lower_bound upper_bound dim wolf_count max_iter draw) t
    (initState_curveMono lower_bound upper_bound dim wolf_count max_iter draw)
  unfold curveMono at h
  exact (List.chain'_append.1 h).1

end GWO

/-! ## C3: the convergence curve is monotonically non-increasing -/

/-- C3: for every valid configuration, every objective and every random
stream, the convergence curve returned by `optimize` is monotonically
non-increasing: entry `i+1` is at most entry `i`, for every index `i`. -/
theorem C3_curve_monotone_nonincreasing (lower_bound upper_bound : ℚ)
    (dim wolf_count max_iter : ℕ) (draw : ℕ → ℕ → ℚ) (obj : List ℚ → ℚ)
    (rng : ℕ → ℚ)
    (h : GWO.validConfig lower_bound upper_bound dim wolf_count max_iter)
    (i : ℕ)
    (hi : i + 1 < (GWO.optimize obj rng
      (GWO.initState lower_bound upper_bound dim wolf_count max_iter
        draw)).convergence_curve.length) :
    (GWO.optimize obj rng
        (GWO.initState lower_bound upper_bound dim wolf_count max_iter
          draw)).convergence_curve.get ⟨i + 1, hi⟩ ≤
      (GWO.optimize obj rng
        (GWO.initState lower_bound upper_bound dim wolf_count max_iter
          draw)).convergence_curve.get ⟨i, Nat.lt_of_succ_lt hi⟩ := by
  have hchain := GWO.afterIter_curve_chain obj rng lower_bound upper_bound
    dim wolf_count max_iter draw
    (GWO.initState lower_bound upper_bound dim wolf_count max_iter
      draw).max_iter
  unfold GWO.optimize at hi ⊢
  rw [List.chain'_iff_get] at hchain
  exact hchain i (by omega)

/-- Witness for C3: the configuration
`lower = 0, upper = 1, dim = 1, wolf_count = 3, max_iter = 2` with the
zero objective and zero streams, at index `i = 0`. -/
theorem C3_curve_monotone_nonincreasing_witness :
    GWO.validConfig 0 1 1 3 2 ∧
      (GWO.optimize zeroObj zeroRng
          (GWO.initState 0 1 1 3 2 zeroDraw)).convergence_curve.get
          ⟨0 + 1, by decide⟩ ≤
        (GWO.optimize zeroObj zeroRng
          (GWO.initState 0 1 1 3 2 zeroDraw)).convergence_curve.get
          ⟨0, by decide⟩ :=
  ⟨by decide,
    C3_curve_monotone_nonincreasing 0 1 1 3 2 zeroDraw zeroObj zeroRng
      (by decide) 0 (by decide)⟩

namespace GWO

lemma afterIter_curve_length (obj : List ℚ → ℚ) (rng : ℕ → ℚ) (s : GWOState)
    (t : ℕ) :
    (afterIter obj rng s t).convergence_curve.length =
      s.convergence_curve.length + t := by
  induction t with
  | zero => rfl
  | succ n ih =>
      rw [afterIter_succ, iterStep_curve, List.length_append, ih]
      simp [Nat.add_assoc]

lemma afterIter_curve_append (obj : List ℚ → ℚ) (rng : ℕ → ℚ) (s : GWOState)
    (t : ℕ) :
    (afterIter obj rng s (t + 1)).convergence_curve =
      (afterIter obj rng s t).convergence_curve ++
        [(afterIter obj rng s (t + 1)).alpha_score] := by
  rw [afterIter_succ, iterStep_curve, iterStep_alpha_score]

end GWO

/-! ## C6: convergence-curve length and append-only growth -/

/-- C6: for every valid configuration, the convergence curve after
`optimize` completes has exactly `max_iter` entries; moreover the loop is
append-only — the curve after `t+1` iterations is the curve after `t`
iterations with exactly one new entry (the then-current alpha score)
appended, earlier entries being left untouched. -/
theorem C6_curve_length_append_only (lower_bound upper_bound : ℚ)
    (dim wolf_count max_iter : ℕ) (draw : ℕ → ℕ → ℚ) (obj : List ℚ → ℚ)
    (rng : ℕ → ℚ) (t : ℕ)
    (h : GWO.validConfig lower_bound upper_bound dim wolf_count max_iter) :
    (GWO.optimize obj rng
        (GWO.initState lower_bound upper_bound dim wolf_count max_iter
          draw)).convergence_curve.length = max_iter ∧
      (GWO.afterIter obj rng
          (GWO.initState lower_bound upper_bound dim wolf_count max_iter draw)
          (t + 1)).convergence_curve =
        (GWO.afterIter obj rng
            (GWO.initState lower_bound upper_bound dim wolf_count max_iter
              draw)
            t).convergence_curve ++
          [(GWO.afterIter obj rng
              (GWO.initState lower_bound upper_bound dim wolf_count max_iter
                draw)
              (t + 1)).alpha_score] := by
  constructor
  · unfold GWO.optimize
    rw [GWO.afterIter_curve_length]
    simp [GWO.initState]
  · exact GWO.afterIter_curve_append obj rng _ t

/-- Witness for C6: the boundary configuration
`lower = 0, upper = 1, dim = 1, wolf_count = 3, max_iter = 1` at `t = 0`. -/
theorem C6_curve_length_append_only_witness :
    GWO.validConfig 0 1 1 3 1 ∧
      ((GWO.optimize zeroObj zeroRng
          (GWO.initState 0 1 1 3 1 zeroDraw)).convergence_curve.length = 1 ∧
        (GWO.afterIter zeroObj zeroRng (GWO.initState 0 1 1 3 1 zeroDraw)
            (0 + 1)).convergence_curve =
          (GWO.afterIter zeroObj zeroRng (GWO.initState 0 1 1 3 1 zeroDraw)
              0).convergence_curve ++
            [(GWO.afterIter zeroObj zeroRng (GWO.initState 0 1 1 3 1 zeroDraw)
                (0 + 1)).alpha_score]) :=
  ⟨by decide,
    C6_curve_length_append_only 0 1 1 3 1 zeroDraw zeroObj zeroRng 0
      (by decide)⟩

/-- The constant objective function `f(x) = c` for all `x`. -/
def constObj (c : ℚ) : List ℚ → ℚ := fun _ => c

namespace GWO

/-! ## Behaviour under a constant objective -/

/-- Invariant of a run under the constant objective `c`: Beta and Delta
were never displaced from their initial `(zero-vector, +infinity)` values,
and Alpha is either still initial or holds score `c`. -/
def constInv (c : ℚ) (s : GWOState) : Prop :=
  s.beta_score = ⊤ ∧ s.delta_score = ⊤ ∧
    s.beta_pos = List.replicate s.dim 0 ∧
    s.delta_pos = List.replicate s.dim 0 ∧
    ((s.alpha_score = ⊤ ∧ s.alpha_pos = List.replicate s.dim 0) ∨
      s.alpha_score = ((c : ℚ) : WithTop ℚ))

lemma updateLeaders_constInv (c : ℚ) (p : List ℚ) (s : GWOState)
    (h : constInv c s) : constInv c (updateLeaders s c p) := by
  obtain ⟨hb, hd, hbp, hdp, halpha⟩ := h
  unfold updateLeaders constInv
  rcases halpha with ⟨ha, hap⟩ | ha
  · rw [ha, if_pos (WithTop.coe_lt_top c)]
    exact ⟨rfl, hb, hap, hbp, Or.inr rfl⟩
  · have n1 : ¬ ((c : WithTop ℚ) < s.alpha_score) := by
      rw [ha]
      exact lt_irrefl _
    have n2 : ¬ (s.alpha_score < ((c : ℚ) : WithTop ℚ) ∧
        ((c : ℚ) : WithTop ℚ) < s.beta_score) := by
      intro hc
      rw [ha] at hc
      exact lt_irrefl _ hc.1
    have n3 : ¬ (s.alpha_score < ((c : ℚ) : WithTop ℚ) ∧
        s.beta_score < ((c : ℚ) : WithTop ℚ) ∧
        ((c : ℚ) : WithTop ℚ) < s.delta_score) := by
      intro hc
      rw [ha] at hc
      exact lt_irrefl _ hc.1
    rw [if_neg n1, if_neg n2, if_neg n3]
    exact ⟨hb, hd, hbp, hdp, Or.inr ha⟩

lemma evalStep_constInv (c : ℚ) (s : GWOState) (i : ℕ) (h : constInv c s) :
    constInv c (evalStep (constObj c) s i) := by
  unfold evalStep constObj
  exact updateLeaders_constInv c _ _ h

lemma posStep_constInv (c a : ℚ) (rng : ℕ → ℚ) (base : ℕ) (s : GWOState)
    (i j : ℕ) (h : constInv c s) : constInv c (posStep a rng base s i j) := h

lemma posPhase_constInv (c a : ℚ) (rng : ℕ → ℚ) (base : ℕ) (s : GWOState)
    (h : constInv c s) : constInv c (posPhase a rng base s) := by
  unfold posPhase
  refine foldl_pred (constInv c) _ (fun s2 i h2 => ?_) _ s h
  exact foldl_pred (constInv c) _
    (fun s3 j h3 => posStep_constInv c a rng base s3 i j h3) _ s2 h2

lemma evalPhase_constInv (c : ℚ) (s : GWOState) (h : constInv c s) :
    constInv c (evalPhase (constObj c) s) :=
  foldl_pred (constInv c) _ (fun s2 i h2 => evalStep_constInv c s2 i h2) _ s h

lemma iterStep_constInv (c : ℚ) (rng : ℕ → ℚ) (s : GWOState) (t : ℕ)
    (h : constInv c s) : constInv c (iterStep (constObj c) rng s t) :=
  posPhase_constInv c _ rng _ _ (evalPhase_constInv c s h)

lemma afterIter_constInv (c : ℚ) (rng : ℕ → ℚ) (s : GWOState) (t : ℕ)
    (h : constInv c s) : constInv c (afterIter (constObj c) rng s t) :=
  foldl_pred (constInv c) _ (fun s2 t2 h2 => iterStep_constInv c rng s2 t2 h2)
    _ s h

lemma initState_constInv (c lower_bound upper_bound : ℚ)
    (dim wolf_count max_iter : ℕ) (draw : ℕ → ℕ → ℚ) :
    constInv c (initState lower_bound upper_bound dim wolf_count max_iter draw) :=
  ⟨rfl, rfl, rfl, rfl, Or.inl ⟨rfl, rfl⟩⟩

lemma updateLeaders_const_alpha (c : ℚ) (p : List ℚ) (s : GWOState)
    (h : s.alpha_score = ⊤ ∨ s.alpha_score = ((c : ℚ) : WithTop ℚ)) :
    (updateLeaders s c p).alpha_score = ((c : ℚ) : WithTop ℚ) := by
  unfold updateLeaders
  rcases h with ha | ha
  · rw [if_pos (by rw [ha]; exact WithTop.coe_lt_top c)]
  · have n1 : ¬ ((c : WithTop ℚ) < s.alpha_score) := by
      rw [ha]
      exact lt_irrefl _
    have n2 : ¬ (s.alpha_score < ((c : ℚ) : WithTop ℚ) ∧
        ((c : ℚ) : WithTop ℚ) < s.beta_score) := by
      intro hc
      rw [ha] at hc
      exact lt_irrefl _ hc.1
    have n3 : ¬ (s.alpha_score < ((c : ℚ) : WithTop ℚ) ∧
        s.beta_score < ((c : ℚ) : WithTop ℚ) ∧
        ((c : ℚ) : WithTop ℚ) < s.delta_score) := by
      intro hc
      rw [ha] at hc
      exact lt_irrefl _ hc.1
    rw [if_neg n1, if_neg n2, if_neg n3]
    exact ha

lemma evalStep_const_alpha (c : ℚ) (s : GWOState) (i : ℕ)
    (h : s.alpha_score = ⊤ ∨ s.alpha_score = ((c : ℚ) : WithTop ℚ)) :
    (evalStep (constObj c) s i).alpha_score = ((c : ℚ) : WithTop ℚ) := by
  unfold evalStep constObj
  exact updateLeaders_const_alpha c _ _ h

lemma foldl_evalStep_const_alpha (c : ℚ) (l : List ℕ) (s : GWOState)
    (hl : l ≠ [])
    (h : s.alpha_score = ⊤ ∨ s.alpha_score = ((c : ℚ) : WithTop ℚ)) :
    ((l.foldl (evalStep (constObj c)) s).alpha_score =
      ((c : ℚ) : WithTop ℚ)) := by
  cases l with
  | nil => exact absurd rfl hl
  | cons x xs =>
      rw [List.foldl_cons]
      refine foldl_pred (fun s2 => s2.alpha_score = ((c : ℚ) : WithTop ℚ)) _
        (fun s2 i h2 => evalStep_const_alpha c s2 i (Or.inr h2)) xs _ ?_
      exact evalStep_const_alpha c s x h

lemma evalPhase_const_alpha (c : ℚ) (s : GWOState) (hpop : 1 ≤ s.pop_size)
    (h : s.alpha_score = ⊤ ∨ s.alpha_score = ((c : ℚ) : WithTop ℚ)) :
    (evalPhase (constObj c) s).alpha_score = ((c : ℚ) : WithTop ℚ) := by
  unfold evalPhase
  refine foldl_evalStep_const_alpha c _ s ?_ h
  simp only [ne_eq, List.range_eq_nil]
  omega

lemma constInv_alpha_cases (c : ℚ) (s : GWOState) (h : constInv c s) :
    s.alpha_score = ⊤ ∨ s.alpha_score = ((c : ℚ) : WithTop ℚ) := by
  rcases h.2.2.2.2 with ⟨ha, -⟩ | ha
  · exact Or.inl ha
  · exact Or.inr ha

lemma afterIter_const_alpha (c lower_bound upper_bound : ℚ)
    (dim wolf_count max_iter : ℕ) (draw : ℕ → ℕ → ℚ) (rng : ℕ → ℚ)
    (hpop : 1 ≤ wolf_count) (t : ℕ) (ht : 1 ≤ t) :
    (afterIter (constObj c) rng
        (initState lower_bound upper_bound dim wolf_count max_iter draw)
        t).alpha_score = ((c : ℚ) : WithTop ℚ) := by
  obtain ⟨n, rfl⟩ : ∃ n, t = n + 1 := ⟨t - 1, by omega⟩
  rw [afterIter_succ, iterStep_alpha_score]
  have hinv := afterIter_constInv c rng
    (initState lower_bound upper_bound dim wolf_count max_iter draw) n
    (initState_constInv c lower_bound upper_bound dim wolf_count max_iter draw)
  refine evalPhase_const_alpha c _ ?_ (constInv_alpha_cases c _ hinv)
  rw [afterIter_pop_size]
  exact hpop

lemma afterIter_const_curve (c lower_bound upper_bound : ℚ)
    (dim wolf_count max_iter : ℕ) (draw : ℕ → ℕ → ℚ) (rng : ℕ → ℚ)
    (hpop : 1 ≤ wolf_count) (t : ℕ) :
    (afterIter (constObj c) rng
        (initState lower_bound upper_bound dim wolf_count max_iter draw)
        t).convergence_curve = List.replicate t ((c : ℚ) : WithTop ℚ) := by
  induction t with
  | zero => rfl
  | succ n ih =>
      rw [afterIter_succ, iterStep_curve, ih]
      have hinv := afterIter_constInv c rng
        (initState lower_bound upper_bound dim wolf_count max_iter draw) n
        (initState_constInv c lower_bound upper_bound dim wolf_count max_iter
          draw)
      have halpha : (evalPhase (constObj c)
          (afterIter (constObj c) rng
            (initState lower_bound upper_bound dim wolf_count max_iter draw)
            n)).alpha_score = ((c : ℚ) : WithTop ℚ) := by
        refine evalPhase_const_alpha c _ ?_ (constInv_alpha_cases c _ hinv)
        rw [afterIter_pop_size]
        exact hpop
      rw [halpha, ← List.replicate_succ']

end GWO

lemma replicate_getD_zero (n j : ℕ) : (List.replicate n (0 : ℚ)).getD j 0 = 0 := by
  induction n generalizing j with
  | zero => rfl
  | succ n ih =>
      cases j with
      | zero => rfl
      | succ j2 => exact ih j2

/-! ## C9: constant objective `f(x) = 5` -/

/-- C9: with the constant objective `f(x) = 5`, for every valid
configuration, `alpha_score` equals exactly `5` after iteration 0 (i.e.
after `t ≥ 1` completed iterations) and stays `5` for the rest of the run,
and every entry of the returned convergence curve equals `5`. -/
theorem C9_constant_objective_five (lower_bound upper_bound : ℚ)
    (dim wolf_count max_iter : ℕ) (draw : ℕ → ℕ → ℚ) (rng : ℕ → ℚ) (t : ℕ)
    (h : GWO.validConfig lower_bound upper_bound dim wolf_count max_iter)
    (ht : 1 ≤ t) :
    (GWO.afterIter (constObj 5) rng
        (GWO.initState lower_bound upper_bound dim wolf_count max_iter draw)
        t).alpha_score = ((5 : ℚ) : WithTop ℚ) ∧
      (GWO.optimize (constObj 5) rng
          (GWO.initState lower_bound upper_bound dim wolf_count max_iter
            draw)).convergence_curve =
        List.replicate max_iter ((5 : ℚ) : WithTop ℚ) := by
  have hpop : 1 ≤ wolf_count := le_trans (by omega) h.2.2.1
  constructor
  · exact GWO.afterIter_const_alpha 5 lower_bound upper_bound dim wolf_count
      max_iter draw rng hpop t ht
  · exact GWO.afterIter_const_curve 5 lower_bound upper_bound dim wolf_count
      max_iter draw rng hpop max_iter

/-- Witness for C9: the boundary configuration
`lower = 0, upper = 1, dim = 1, wolf_count = 3, max_iter = 1` after one
iteration. -/
theorem C9_constant_objective_five_witness :
    GWO.validConfig 0 1 1 3 1 ∧ 1 ≤ 1 ∧
      ((GWO.afterIter (constObj 5) zeroRng
          (GWO.initState 0 1 1 3 1 zeroDraw) 1).alpha_score =
          ((5 : ℚ) : WithTop ℚ) ∧
        (GWO.optimize (constObj 5) zeroRng
            (GWO.initState 0 1 1 3 1 zeroDraw)).convergence_curve =
          List.replicate 1 ((5 : ℚ) : WithTop ℚ)) :=
  ⟨by decide, by decide,
    C9_constant_objective_five 0 1 1 3 1 zeroDraw zeroRng 1 (by decide)
      (by decide)⟩

/-! ## C10: under a constant objective Beta and Delta keep their initial values -/

/-- C10: with a constant objective `f(x) = c`, at every point of the run
`beta_score` and `delta_score` are still `+infinity` and `beta_pos` and
`delta_pos` are still the zero vector: once the first candidate has become
Alpha, no later equal-fitness candidate is ever promoted to Beta or Delta,
so every Beta and Delta pull term of the position update reads coordinate
`0` from the zero vector. -/
theorem C10_constant_objective_beta_delta_untouched (c : ℚ)
    (lower_bound upper_bound : ℚ) (dim wolf_count max_iter : ℕ)
    (draw : ℕ → ℕ → ℚ) (rng : ℕ → ℚ) (t : ℕ) :
    (GWO.afterIter (constObj c) rng
        (GWO.initState lower_bound upper_bound dim wolf_count max_iter draw)
        t).beta_score = ⊤ ∧
      (GWO.afterIter (constObj c) rng
          (GWO.initState lower_bound upper_bound dim wolf_count max_iter draw)
          t).delta_score = ⊤ ∧
      (GWO.afterIter (constObj c) rng
          (GWO.initState lower_bound upper_bound dim wolf_count max_iter draw)
          t).beta_pos = List.replicate dim 0 ∧
      (GWO.afterIter (constObj c) rng
          (GWO.initState lower_bound upper_bound dim wolf_count max_iter draw)
          t).delta_pos = List.replicate dim 0 ∧
      ∀ j : ℕ,
        (GWO.afterIter (constObj c) rng
            (GWO.initState lower_bound upper_bound dim wolf_count max_iter
              draw)
            t).beta_pos.getD j 0 = 0 ∧
          (GWO.afterIter (constObj c) rng
              (GWO.initState lower_bound upper_bound dim wolf_count max_iter
                draw)
              t).delta_pos.getD j 0 = 0 := by
  have hinv := GWO.afterIter_constInv c rng
    (GWO.initState lower_bound upper_bound dim wolf_count max_iter draw) t
    (GWO.initState_constInv c lower_bound upper_bound dim wolf_count max_iter
      draw)
  obtain ⟨hb, hd, hbp, hdp, -⟩ := hinv
  have hdim : (GWO.afterIter (constObj c) rng
      (GWO.initState lower_bound upper_bound dim wolf_count max_iter draw)
      t).dim = dim := GWO.afterIter_dim _ _ _ _
  rw [hdim] at hbp hdp
  refine ⟨hb, hd, hbp, hdp, fun j => ?_⟩
  rw [hbp, hdp]
  exact ⟨replicate_getD_zero dim j, replicate_getD_zero dim j⟩

namespace GWO

/-! ## Clipping keeps coordinates in the box -/

lemma clip_mem (lb ub x : ℚ) (h : lb ≤ ub) :
    lb ≤ clip lb ub x ∧ clip lb ub x ≤ ub := by
  unfold clip
  constructor
  · exact le_min h (le_max_left lb x)
  · exact min_le_left ub _

lemma clip_row_mem (lb ub : ℚ) (row : List ℚ) (h : lb ≤ ub) :
    ∀ x ∈ row.map (clip lb ub), lb ≤ x ∧ x ≤ ub := by
  intro x hx
  obtain ⟨y, -, rfl⟩ := List.mem_map.1 hx
  exact clip_mem lb ub y h

lemma listGetD_set_self_or {α : Type} (l : List α) (i : ℕ) (a d : α) :
    (l.set i a).getD i d = if i < l.length then a else d := by
  split_ifs with h
  · exact listGetD_set_self l i a d h
  · rw [List.getD_eq_default]
    rw [List.length_set]
    omega

lemma evalStep_positions (obj : List ℚ → ℚ) (s : GWOState) (i : ℕ) :
    (evalStep obj s i).positions =
      s.positions.set i ((s.positions.getD i []).map (clip s.lb s.ub)) := by
  unfold evalStep
  rw [updateLeaders_positions]

lemma foldl_evalStep_length (obj : List ℚ → ℚ) (l : List ℕ) (s : GWOState) :
    (l.foldl (evalStep obj) s).positions.length = s.positions.length := by
  refine foldl_proj_eq (fun s2 => s2.positions.length) _ (fun s2 i => ?_) l s
  show (evalStep obj s2 i).positions.length = s2.positions.length
  rw [evalStep_positions, List.length_set]

/-- After the loop `for i in range n` of the evaluation phase, row `i` of
the position matrix is its former self clipped into `[lb, ub]` when
`i < n`, and untouched otherwise. -/
lemma foldl_evalStep_row (obj : List ℚ → ℚ) (n : ℕ) (s : GWOState) (i : ℕ) :
    ((List.range n).foldl (evalStep obj) s).positions.getD i [] =
      if i < n then (s.positions.getD i []).map (clip s.lb s.ub)
      else s.positions.getD i [] := by
  induction n with
  | zero => simp
  | succ m ih =>
      rw [List.range_succ, List.foldl_append, List.foldl_cons, List.foldl_nil]
      rcases eq_or_ne i m with rfl | hne
      · rw [evalStep_positions, listGetD_set_self_or, ih]
        rw [foldl_evalStep_length]
        rw [if_neg (lt_irrefl i), if_pos (Nat.lt_succ_self i)]
        have hlb := foldl_proj_eq (fun s2 => s2.lb) _ (evalStep_lb obj)
          (List.range i) s
        have hub := foldl_proj_eq (fun s2 => s2.ub) _ (evalStep_ub obj)
          (List.range i) s
        rw [hlb, hub]
        split_ifs with hlen
        · rfl
        · rw [List.getD_eq_default _ _ (by omega)]
          rfl
      · rw [evalStep_positions, listGetD_set_ne _ _ _ (Ne.symm hne), ih]
        have : i < m + 1 ↔ i < m := by omega
        rw [if_congr this rfl rfl]

/-- Every row of the position matrix that the evaluation phase touched is
clipped into the box. -/
lemma evalPhase_row_clipped (obj : List ℚ → ℚ) (s : GWOState) (i : ℕ)
    (hi : i < s.pop_size) (h : s.lb ≤ s.ub) :
    ∀ x ∈ (evalPhase obj s).positions.getD i [], s.lb ≤ x ∧ x ≤ s.ub := by
  unfold evalPhase
  rw [foldl_evalStep_row, if_pos hi]
  exact clip_row_mem s.lb s.ub _ h

/-! ## The objective is only ever applied to clipped (in-box) candidates -/

lemma evalStep_congr (lb ub : ℚ) (f g : List ℚ → ℚ)
    (hfg : ∀ v, (∀ x ∈ v, lb ≤ x ∧ x ≤ ub) → f v = g v) (h : lb ≤ ub)
    (s : GWOState) (i : ℕ) (hl : s.lb = lb) (hu : s.ub = ub) :
    evalStep f s i = evalStep g s i := by
  simp only [evalStep]
  rw [hfg ((s.positions.getD i []).map (clip s.lb s.ub))]
  rw [hl, hu]
  exact clip_row_mem lb ub _ h

lemma evalPhase_congr (lb ub : ℚ) (f g : List ℚ → ℚ)
    (hfg : ∀ v, (∀ x ∈ v, lb ≤ x ∧ x ≤ ub) → f v = g v) (h : lb ≤ ub)
    (s : GWOState) (hl : s.lb = lb) (hu : s.ub = ub) :
    evalPhase f s = evalPhase g s := by
  unfold evalPhase
  have hmain : ∀ (l : List ℕ) (s2 : GWOState), s2.lb = lb → s2.ub = ub →
      l.foldl (evalStep f) s2 = l.foldl (evalStep g) s2 := by
    intro l
    induction l with
    | nil => intro s2 _ _; rfl
    | cons x xs ih =>
        intro s2 hl2 hu2
        rw [List.foldl_cons, List.foldl_cons,
          evalStep_congr lb ub f g hfg h s2 x hl2 hu2]
        refine ih _ ?_ ?_
        · rw [evalStep_lb, hl2]
        · rw [evalStep_ub, hu2]
  exact hmain _ s hl hu

lemma iterStep_congr (lb ub : ℚ) (f g : List ℚ → ℚ) (rng : ℕ → ℚ)
    (hfg : ∀ v, (∀ x ∈ v, lb ≤ x ∧ x ≤ ub) → f v = g v) (h : lb ≤ ub)
    (s : GWOState) (t : ℕ) (hl : s.lb = lb) (hu : s.ub = ub) :
    iterStep f rng s t = iterStep g rng s t := by
  unfold iterStep
  rw [evalPhase_congr lb ub f g hfg h s hl hu]

lemma foldl_congr_inv {σ β : Type} (P : σ → Prop) (f g : σ → β → σ)
    (hP : ∀ s b, P s → P (f s b)) (hfg : ∀ s b, P s → f s b = g s b) :
    ∀ (l : List β) (s : σ), P s → l.foldl f s = l.foldl g s := by
  intro l
  induction l with
  | nil => intro s _; rfl
  | cons x xs ih =>
      intro s hs
      rw [List.foldl_cons, List.foldl_cons, ← hfg s x hs]
      exact ih _ (hP s x hs)

lemma afterIter_congr (lb ub : ℚ) (f g : List ℚ → ℚ) (rng : ℕ → ℚ)
    (hfg : ∀ v, (∀ x ∈ v, lb ≤ x ∧ x ≤ ub) → f v = g v) (h : lb ≤ ub)
    (s : GWOState) (t : ℕ) (hl : s.lb = lb) (hu : s.ub = ub) :
    afterIter f rng s t = afterIter g rng s t := by
  unfold afterIter
  refine foldl_congr_inv (fun s2 => s2.lb = lb ∧ s2.ub = ub) _ _
    (fun s2 b hP => ?_) (fun s2 b hP => ?_) _ s ⟨hl, hu⟩
  · constructor
    · rw [iterStep_lb]
      exact hP.1
    · rw [iterStep_ub]
      exact hP.2
  · exact iterStep_congr lb ub f g rng hfg h s2 b hP.1 hP.2

end GWO

/-! ## C7: candidates are clipped into the box before evaluation -/

/-- C7: for every valid configuration and every iteration, (a) after the
evaluation loop of that iteration, every coordinate of every candidate row
(these rows are exactly the clipped vectors on which the objective was
evaluated, the position update not having run yet) lies within
`[lower, upper]`; and (b) the objective is never applied to an unclipped
candidate: two objectives that agree on all in-box vectors produce
identical runs. -/
theorem C7_clip_before_evaluation (lower_bound upper_bound : ℚ)
    (dim wolf_count max_iter : ℕ) (draw : ℕ → ℕ → ℚ) (obj : List ℚ → ℚ)
    (rng : ℕ → ℚ) (t : ℕ)
    (h : GWO.validConfig lower_bound upper_bound dim wolf_count max_iter) :
    (∀ i, i < wolf_count →
      ∀ x ∈ (GWO.evalPhase obj (GWO.afterIter obj rng
          (GWO.initState lower_bound upper_bound dim wolf_count max_iter draw)
          t)).positions.getD i [],
        lower_bound ≤ x ∧ x ≤ upper_bound) ∧
      (∀ f g : List ℚ → ℚ,
        (∀ v, (∀ x ∈ v, lower_bound ≤ x ∧ x ≤ upper_bound) → f v = g v) →
        GWO.optimize f rng
            (GWO.initState lower_bound upper_bound dim wolf_count max_iter
              draw) =
          GWO.optimize g rng
            (GWO.initState lower_bound upper_bound dim wolf_count max_iter
              draw)) := by
  constructor
  · intro i hi x hx
    have key := GWO.evalPhase_row_clipped obj
      (GWO.afterIter obj rng
        (GWO.initState lower_bound upper_bound dim wolf_count max_iter draw)
        t) i ?_ ?_ x hx
    · rw [GWO.afterIter_lb, GWO.afterIter_ub] at key
      exact key
    · rw [GWO.afterIter_pop_size]
      exact hi
    · rw [GWO.afterIter_lb, GWO.afterIter_ub]
      exact le_of_lt h.1
  · intro f g hfg
    unfold GWO.optimize
    exact GWO.afterIter_congr lower_bound upper_bound f g rng hfg
      (le_of_lt h.1) _ _ rfl rfl

/-- Witness for C7: the boundary configuration
`lower = 0, upper = 1, dim = 1, wolf_count = 3, max_iter = 1` at
iteration `t = 0`. -/
theorem C7_clip_before_evaluation_witness :
    GWO.validConfig 0 1 1 3 1 ∧
      ((∀ i, i < 3 →
        ∀ x ∈ (GWO.evalPhase zeroObj (GWO.afterIter zeroObj zeroRng
            (GWO.initState 0 1 1 3 1 zeroDraw) 0)).positions.getD i [],
          (0 : ℚ) ≤ x ∧ x ≤ 1) ∧
        (∀ f g : List ℚ → ℚ,
          (∀ v, (∀ x ∈ v, (0 : ℚ) ≤ x ∧ x ≤ 1) → f v = g v) →
          GWO.optimize f zeroRng (GWO.initState 0 1 1 3 1 zeroDraw) =
            GWO.optimize g zeroRng (GWO.initState 0 1 1 3 1 zeroDraw))) :=
  ⟨by decide,
    C7_clip_before_evaluation 0 1 1 3 1 zeroDraw zeroObj zeroRng 0
      (by decide)⟩

namespace GWO

/-! ## Extracting one coordinate of the position-update phase -/

/-- The value written into coordinate `(i, j)` by the position-update body,
as a function of the six consumed stream values starting at `b` and the
scalars it reads: the three leader coordinates and the candidate's current
coordinate `x`. -/
def posVal (a : ℚ) (rng : ℕ → ℚ) (b : ℕ) (alphaJ betaJ deltaJ x : ℚ) : ℚ :=
  (pull a alphaJ x (rng b) (rng (b + 1)) +
    pull a betaJ x (rng (b + 2)) (rng (b + 3)) +
    pull a deltaJ x (rng (b + 4)) (rng (b + 5))) / 3

lemma posStep_positions (a : ℚ) (rng : ℕ → ℚ) (base : ℕ) (s : GWOState)
    (i j : ℕ) :
    (posStep a rng base s i j).positions =
      s.positions.set i ((s.positions.getD i []).set j
        (posVal a rng (base + 6 * (i * s.dim + j)) (s.alpha_pos.getD j 0)
          (s.beta_pos.getD j 0) (s.delta_pos.getD j 0)
          ((s.positions.getD i []).getD j 0))) := rfl

lemma posStep_row_length (a : ℚ) (rng : ℕ → ℚ) (base : ℕ) (s : GWOState)
    (i j : ℕ) :
    ((posStep a rng base s i j).positions.getD i []).length =
      (s.positions.getD i []).length := by
  rw [posStep_positions, listGetD_set_self_or]
  split_ifs with h
  · rw [List.length_set]
  · rw [List.getD_eq_default _ _ (le_of_not_lt h)]

lemma posStep_positions_length (a : ℚ) (rng : ℕ → ℚ) (base : ℕ)
    (s : GWOState) (i j : ℕ) :
    (posStep a rng base s i j).positions.length = s.positions.length := by
  rw [posStep_positions, List.length_set]

lemma posStep_row_ne (a : ℚ) (rng : ℕ → ℚ) (base : ℕ) (s : GWOState)
    (i j i2 : ℕ) (hne : i2 ≠ i) :
    (posStep a rng base s i j).positions.getD i2 [] =
      s.positions.getD i2 [] := by
  rw [posStep_positions, listGetD_set_ne _ _ _ (Ne.symm hne)]

lemma innerFold_row_ne (a : ℚ) (rng : ℕ → ℚ) (base : ℕ) (i i2 : ℕ)
    (hne : i2 ≠ i) (l : List ℕ) (s : GWOState) :
    ((l.foldl (fun s3 j => posStep a rng base s3 i j) s).positions.getD i2
      []) = s.positions.getD i2 [] := by
  refine foldl_proj_eq (fun s2 => s2.positions.getD i2 []) _
    (fun s2 j => ?_) l s
  show (posStep a rng base s2 i j).positions.getD i2 [] =
    s2.positions.getD i2 []
  exact posStep_row_ne a rng base s2 i j i2 hne

lemma innerFold_row_length (a : ℚ) (rng : ℕ → ℚ) (base : ℕ) (i : ℕ)
    (l : List ℕ) (s : GWOState) :
    ((l.foldl (fun s3 j => posStep a rng base s3 i j) s).positions.getD i
      []).length = (s.positions.getD i []).length := by
  refine foldl_proj_eq (fun s2 => (s2.positions.getD i []).length) _
    (fun s2 j => ?_) l s
  show ((posStep a rng base s2 i j).positions.getD i []).length =
    (s2.positions.getD i []).length
  exact posStep_row_length a rng base s2 i j

lemma innerFold_positions_length (a : ℚ) (rng : ℕ → ℚ) (base : ℕ) (i : ℕ)
    (l : List ℕ) (s : GWOState) :
    (l.foldl (fun s3 j => posStep a rng base s3 i j) s).positions.length =
      s.positions.length := by
  refine foldl_proj_eq (fun s2 => s2.positions.length) _ (fun s2 j => ?_) l s
  show (posStep a rng base s2 i j).positions.length = s2.positions.length
  exact posStep_positions_length a rng base s2 i j

lemma innerFold_dim (a : ℚ) (rng : ℕ → ℚ) (base : ℕ) (i : ℕ) (l : List ℕ)
    (s : GWOState) :
    (l.foldl (fun s3 j => posStep a rng base s3 i j) s).dim = s.dim :=
  by
  refine foldl_proj_eq (fun s2 => s2.dim)
    (fun s3 j => posStep a rng base s3 i j) (fun s2 j => ?_) l s
  rfl

lemma innerFold_alpha_pos (a : ℚ) (rng : ℕ → ℚ) (base : ℕ) (i : ℕ)
    (l : List ℕ) (s : GWOState) :
    (l.foldl (fun s3 j => posStep a rng base s3 i j) s).alpha_pos =
      s.alpha_pos :=
  by
  refine foldl_proj_eq (fun s2 => s2.alpha_pos)
    (fun s3 j => posStep a rng base s3 i j) (fun s2 j => ?_) l s
  rfl

lemma innerFold_beta_pos (a : ℚ) (rng : ℕ → ℚ) (base : ℕ) (i : ℕ)
    (l : List ℕ) (s : GWOState) :
    (l.foldl (fun s3 j => posStep a rng base s3 i j) s).beta_pos =
      s.beta_pos :=
  by
  refine foldl_proj_eq (fun s2 => s2.beta_pos)
    (fun s3 j => posStep a rng base s3 i j) (fun s2 j => ?_) l s
  rfl

lemma innerFold_delta_pos (a : ℚ) (rng : ℕ → ℚ) (base : ℕ) (i : ℕ)
    (l : List ℕ) (s : GWOState) :
    (l.foldl (fun s3 j => posStep a rng base s3 i j) s).delta_pos =
      s.delta_pos :=
  by
  refine foldl_proj_eq (fun s2 => s2.delta_pos)
    (fun s3 j => posStep a rng base s3 i j) (fun s2 j => ?_) l s
  rfl

end GWO

namespace GWO

/-- Coordinate `j` of row `i` after the inner loop
`for j in range(n)` of the position update: coordinates `j < n` (that
exist) hold the update formula applied to the pre-update row, the rest are
untouched. -/
lemma innerFold_coord (a : ℚ) (rng : ℕ → ℚ) (base : ℕ) (i : ℕ) (n : ℕ)
    (s : GWOState) (j : ℕ) :
    (((List.range n).foldl (fun s3 j2 => posStep a rng base s3 i j2)
        s).positions.getD i []).getD j 0 =
      if j < n ∧ j < (s.positions.getD i []).length then
        posVal a rng (base + 6 * (i * s.dim + j)) (s.alpha_pos.getD j 0)
          (s.beta_pos.getD j 0) (s.delta_pos.getD j 0)
          ((s.positions.getD i []).getD j 0)
      else (s.positions.getD i []).getD j 0 := by
  induction n generalizing j with
  | zero => simp
  | succ m ih =>
      rw [List.range_succ, List.foldl_append, List.foldl_cons, List.foldl_nil]
      have hlen : ((List.range m).foldl
          (fun s3 j2 => posStep a rng base s3 i j2) s).positions.length =
          s.positions.length :=
        innerFold_positions_length a rng base i _ s
      have hrowlen : (((List.range m).foldl
          (fun s3 j2 => posStep a rng base s3 i j2) s).positions.getD i
          []).length = (s.positions.getD i []).length :=
        innerFold_row_length a rng base i _ s
      have hdim : ((List.range m).foldl
          (fun s3 j2 => posStep a rng base s3 i j2) s).dim = s.dim :=
        innerFold_dim a rng base i _ s
      have hal : ((List.range m).foldl
          (fun s3 j2 => posStep a rng base s3 i j2) s).alpha_pos =
          s.alpha_pos :=
        innerFold_alpha_pos a rng base i _ s
      have hbe : ((List.range m).foldl
          (fun s3 j2 => posStep a rng base s3 i j2) s).beta_pos =
          s.beta_pos :=
        innerFold_beta_pos a rng base i _ s
      have hde : ((List.range m).foldl
          (fun s3 j2 => posStep a rng base s3 i j2) s).delta_pos =
          s.delta_pos :=
        innerFold_delta_pos a rng base i _ s
      rw [posStep_positions, listGetD_set_self_or]
      by_cases hilen : i < ((List.range m).foldl
          (fun s3 j2 => posStep a rng base s3 i j2) s).positions.length
      · rw [if_pos hilen]
        rcases eq_or_ne j m with rfl | hjm
        · rw [listGetD_set_self_or]
          by_cases hml : j < (((List.range j).foldl
              (fun s3 j2 => posStep a rng base s3 i j2) s).positions.getD i
              []).length
          · rw [if_pos hml, hdim, hal, hbe, hde, ih j]
            rw [if_neg (by omega)]
            rw [if_pos ⟨Nat.lt_succ_self j, by rwa [hrowlen] at hml⟩]
          · rw [if_neg hml]
            rw [if_neg (by rw [hrowlen] at hml; omega)]
            rw [List.getD_eq_default _ _ (by rw [hrowlen] at hml; omega)]
        · rw [listGetD_set_ne _ _ _ (Ne.symm hjm), ih j]
          have hiff : (j < m ∧ j < (s.positions.getD i []).length) ↔
              (j < m + 1 ∧ j < (s.positions.getD i []).length) := by
            constructor
            · intro hc
              exact ⟨by omega, hc.2⟩
            · intro hc
              exact ⟨by omega, hc.2⟩
          rw [if_congr hiff rfl rfl]
      · rw [if_neg hilen]
        have hrow : s.positions.getD i [] = [] := by
          refine List.getD_eq_default _ _ ?_
          rw [← hlen]
          omega
        rw [hrow]
        simp

end GWO

namespace GWO

lemma posStep_any_row_length (a : ℚ) (rng : ℕ → ℚ) (base : ℕ) (s : GWOState)
    (i j i2 : ℕ) :
    ((posStep a rng base s i j).positions.getD i2 []).length =
      (s.positions.getD i2 []).length := by
  rcases eq_or_ne i2 i with rfl | hne
  · exact posStep_row_length a rng base s i2 j
  · rw [posStep_row_ne a rng base s i j i2 hne]

lemma outerFold_dim (a : ℚ) (rng : ℕ → ℚ) (base : ℕ) (l : List ℕ)
    (s : GWOState) :
    (l.foldl (fun s2 i => (List.range s2.dim).foldl
        (fun s3 j => posStep a rng base s3 i j) s2) s).dim = s.dim := by
  refine foldl_proj_eq (fun s2 => s2.dim) _ (fun s2 i => ?_) l s
  show ((List.range s2.dim).foldl
    (fun s3 j => posStep a rng base s3 i j) s2).dim = s2.dim
  exact innerFold_dim a rng base i _ s2

lemma outerFold_alpha_pos (a : ℚ) (rng : ℕ → ℚ) (base : ℕ) (l : List ℕ)
    (s : GWOState) :
    (l.foldl (fun s2 i => (List.range s2.dim).foldl
        (fun s3 j => posStep a rng base s3 i j) s2) s).alpha_pos =
      s.alpha_pos := by
  refine foldl_proj_eq (fun s2 => s2.alpha_pos) _ (fun s2 i => ?_) l s
  show ((List.range s2.dim).foldl
    (fun s3 j => posStep a rng base s3 i j) s2).alpha_pos = s2.alpha_pos
  exact innerFold_alpha_pos a rng base i _ s2

lemma outerFold_beta_pos (a : ℚ) (rng : ℕ → ℚ) (base : ℕ) (l : List ℕ)
    (s : GWOState) :
    (l.foldl (fun s2 i => (List.range s2.dim).foldl
        (fun s3 j => posStep a rng base s3 i j) s2) s).beta_pos =
      s.beta_pos := by
  refine foldl_proj_eq (fun s2 => s2.beta_pos) _ (fun s2 i => ?_) l s
  show ((List.range s2.dim).foldl
    (fun s3 j => posStep a rng base s3 i j) s2).beta_pos = s2.beta_pos
  exact innerFold_beta_pos a rng base i _ s2

lemma outerFold_delta_pos (a : ℚ) (rng : ℕ → ℚ) (base : ℕ) (l : List ℕ)
    (s : GWOState) :
    (l.foldl (fun s2 i => (List.range s2.dim).foldl
        (fun s3 j => posStep a rng base s3 i j) s2) s).delta_pos =
      s.delta_pos := by
  refine foldl_proj_eq (fun s2 => s2.delta_pos) _ (fun s2 i => ?_) l s
  show ((List.range s2.dim).foldl
    (fun s3 j => posStep a rng base s3 i j) s2).delta_pos = s2.delta_pos
  exact innerFold_delta_pos a rng base i _ s2

/-- Rows not yet reached by the outer loop of the position update are
untouched. -/
lemma outerFold_row_untouched (a : ℚ) (rng : ℕ → ℚ) (base : ℕ) (n : ℕ)
    (s : GWOState) (i : ℕ) (hi : n ≤ i) :
    ((List.range n).foldl (fun s2 i2 => (List.range s2.dim).foldl
        (fun s3 j => posStep a rng base s3 i2 j) s2) s).positions.getD i [] =
      s.positions.getD i [] := by
  induction n with
  | zero => rfl
  | succ m ih =>
      rw [List.range_succ, List.foldl_append, List.foldl_cons, List.foldl_nil]
      rw [innerFold_row_ne a rng base m i (by omega) _ _]
      exact ih (by omega)

end GWO

namespace GWO

/-- Coordinate `(i, j)` after the full double loop of the position-update
phase run over the first `n` rows: processed coordinates hold the update
formula evaluated on the pre-update state, everything else is untouched. -/
lemma outerFold_coord (a : ℚ) (rng : ℕ → ℚ) (base : ℕ) (n : ℕ)
    (s : GWOState) (i j : ℕ) :
    (((List.range n).foldl (fun s2 i2 => (List.range s2.dim).foldl
        (fun s3 j2 => posStep a rng base s3 i2 j2) s2) s).positions.getD i
        []).getD j 0 =
      if i < n ∧ j < s.dim ∧ j < (s.positions.getD i []).length then
        posVal a rng (base + 6 * (i * s.dim + j)) (s.alpha_pos.getD j 0)
          (s.beta_pos.getD j 0) (s.delta_pos.getD j 0)
          ((s.positions.getD i []).getD j 0)
      else (s.positions.getD i []).getD j 0 := by
  induction n with
  | zero => simp
  | succ m ih =>
      rw [List.range_succ, List.foldl_append, List.foldl_cons, List.foldl_nil]
      have hdim : ((List.range m).foldl (fun s2 i2 => (List.range s2.dim).foldl
          (fun s3 j2 => posStep a rng base s3 i2 j2) s2) s).dim = s.dim :=
        outerFold_dim a rng base _ s
      have hal : ((List.range m).foldl (fun s2 i2 => (List.range s2.dim).foldl
          (fun s3 j2 => posStep a rng base s3 i2 j2) s2) s).alpha_pos =
          s.alpha_pos :=
        outerFold_alpha_pos a rng base _ s
      have hbe : ((List.range m).foldl (fun s2 i2 => (List.range s2.dim).foldl
          (fun s3 j2 => posStep a rng base s3 i2 j2) s2) s).beta_pos =
          s.beta_pos :=
        outerFold_beta_pos a rng base _ s
      have hde : ((List.range m).foldl (fun s2 i2 => (List.range s2.dim).foldl
          (fun s3 j2 => posStep a rng base s3 i2 j2) s2) s).delta_pos =
          s.delta_pos :=
        outerFold_delta_pos a rng base _ s
      by_cases hcase : i = m
      · subst hcase
        have hrow : ((List.range i).foldl (fun s2 i2 =>
            (List.range s2.dim).foldl
              (fun s3 j2 => posStep a rng base s3 i2 j2) s2) s).positions.getD
            i [] = s.positions.getD i [] :=
          outerFold_row_untouched a rng base i s i (le_refl i)
        rw [innerFold_coord, hdim, hal, hbe, hde, hrow]
        have hiff : (j < s.dim ∧ j < (s.positions.getD i []).length) ↔
            (i < i + 1 ∧ j < s.dim ∧ j < (s.positions.getD i []).length) :=
          ⟨fun hc => ⟨Nat.lt_succ_self i, hc⟩, fun hc => hc.2⟩
        rw [if_congr hiff rfl rfl]
      · rw [innerFold_row_ne a rng base m i hcase _ _, ih]
        have hiff : (i < m ∧ j < s.dim ∧ j < (s.positions.getD i []).length) ↔
            (i < m + 1 ∧ j < s.dim ∧ j < (s.positions.getD i []).length) := by
          constructor
          · intro hc
            exact ⟨by omega, hc.2⟩
          · intro hc
            refine ⟨?_, hc.2⟩
            rcases Nat.lt_succ_iff_lt_or_eq.1 hc.1 with h2 | h2
            · exact h2
            · exact absurd h2 hcase
        rw [if_congr hiff rfl rfl]

/-- Coordinate `(i, j)` after the whole position-update phase. -/
lemma posPhase_coord (a : ℚ) (rng : ℕ → ℚ) (base : ℕ) (s : GWOState)
    (i j : ℕ) :
    (((posPhase a rng base s).positions.getD i []).getD j 0) =
      if i < s.pop_size ∧ j < s.dim ∧ j < (s.positions.getD i []).length then
        posVal a rng (base + 6 * (i * s.dim + j)) (s.alpha_pos.getD j 0)
          (s.beta_pos.getD j 0) (s.delta_pos.getD j 0)
          ((s.positions.getD i []).getD j 0)
      else (s.positions.getD i []).getD j 0 := by
  unfold posPhase
  exact outerFold_coord a rng base s.pop_size s i j

end GWO

/-! ## C4: the position-update formula -/

/-- C4: for every candidate `i` and dimension `j` of the position-update
phase, the new coordinate fully replaces the old one and equals
`(X_Alpha + X_Beta + X_Delta) / 3`, where for each leader `L` (in the order
Alpha, Beta, Delta) a fresh pair of stream values is consumed —
`r1 = rng (b + 2k)`, `r2 = rng (b + 2k + 1)` for the `k`-th leader, with
`b = base + 6*(i*dim + j)` — and
`X_L = L[j] − (2·a·r1 − a) · |2·r2·L[j] − position[i][j]|`. -/
theorem C4_position_update_formula (a : ℚ) (rng : ℕ → ℚ) (base : ℕ)
    (s : GWOState) (i j : ℕ) (hi : i < s.pop_size) (hj : j < s.dim)
    (hrow : j < (s.positions.getD i []).length) :
    (((GWO.posPhase a rng base s).positions.getD i []).getD j 0) =
      ((s.alpha_pos.getD j 0 -
          (2 * a * rng (base + 6 * (i * s.dim + j)) - a) *
            |2 * rng (base + 6 * (i * s.dim + j) + 1) * s.alpha_pos.getD j 0 -
              (s.positions.getD i []).getD j 0|) +
        (s.beta_pos.getD j 0 -
          (2 * a * rng (base + 6 * (i * s.dim + j) + 2) - a) *
            |2 * rng (base + 6 * (i * s.dim + j) + 3) * s.beta_pos.getD j 0 -
              (s.positions.getD i []).getD j 0|) +
        (s.delta_pos.getD j 0 -
          (2 * a * rng (base + 6 * (i * s.dim + j) + 4) - a) *
            |2 * rng (base + 6 * (i * s.dim + j) + 5) * s.delta_pos.getD j 0 -
              (s.positions.getD i []).getD j 0|)) / 3 := by
  rw [GWO.posPhase_coord, if_pos ⟨hi, hj, hrow⟩]
  rfl

/-- A concrete mid-run state with distinct leaders, used to instantiate the
position-update theorem. -/
def c4State : GWOState :=
  { lb := 0
    ub := 1
    dim := 1
    pop_size := 3
    max_iter := 1
    positions := [[1/2], [1/2], [1/2]]
    alpha_pos := [1/4]
    alpha_score := ((1 : ℚ) : WithTop ℚ)
    beta_pos := [1/3]
    beta_score := ((2 : ℚ) : WithTop ℚ)
    delta_pos := [1/5]
    delta_score := ((3 : ℚ) : WithTop ℚ)
    convergence_curve := [] }

/-- Witness for C4: the formula instantiated at `a = 1`, the zero stream,
`base = 0`, candidate `0`, dimension `0` of `c4State`. -/
theorem C4_position_update_formula_witness :
    0 < c4State.pop_size ∧ 0 < c4State.dim ∧
      0 < (c4State.positions.getD 0 []).length ∧
      (((GWO.posPhase 1 zeroRng 0 c4State).positions.getD 0 []).getD 0 0) =
        ((c4State.alpha_pos.getD 0 0 -
            (2 * 1 * zeroRng (0 + 6 * (0 * c4State.dim + 0)) - 1) *
              |2 * zeroRng (0 + 6 * (0 * c4State.dim + 0) + 1) *
                  c4State.alpha_pos.getD 0 0 -
                (c4State.positions.getD 0 []).getD 0 0|) +
          (c4State.beta_pos.getD 0 0 -
            (2 * 1 * zeroRng (0 + 6 * (0 * c4State.dim + 0) + 2) - 1) *
              |2 * zeroRng (0 + 6 * (0 * c4State.dim + 0) + 3) *
                  c4State.beta_pos.getD 0 0 -
                (c4State.positions.getD 0 []).getD 0 0|) +
          (c4State.delta_pos.getD 0 0 -
            (2 * 1 * zeroRng (0 + 6 * (0 * c4State.dim + 0) + 4) - 1) *
              |2 * zeroRng (0 + 6 * (0 * c4State.dim + 0) + 5) *
                  c4State.delta_pos.getD 0 0 -
                (c4State.positions.getD 0 []).getD 0 0|)) / 3 :=
  ⟨by decide, by decide, by decide,
    C4_position_update_formula 1 zeroRng 0 c4State 0 0 (by decide) (by decide)
      (by decide)⟩
